import Mathlib

/-!
Verification of `goog.storage.mechanism.HTML5WebStorage`
(src/closure/goog/storage/mechanism/html5webstorage.js).

The adapter wraps a host-provided HTML5 `Storage` object.  We embed that
host object as an ordered list of key/value entries (the order exposed by
`Storage.key(i)`) together with a boolean `writeOk` saying whether
`setItem` currently succeeds; `writeOk = false` models the situation in
which every write throws (quota exceeded, or a private-mode browser that
rejects all writes).  Values held by the host store are JavaScript values:
the mechanism only ever writes strings, but foreign code may have stored a
value of another type, which the adapter must treat as invalid state.

Fallible operations return `Except ErrorCode`; a thrown JS exception of
the host `setItem` is `Option.none`.
-/

/-- A JavaScript value as seen through the Web Storage API: either a
string, or some value of any other (non-null) type. -/
inductive JSVal where
  | str (s : String)
  | other
deriving DecidableEq

/-- JS `typeof value === 'string'`. -/
def JSVal.isStr : JSVal → Bool
  | .str _ => true
  | .other => false

/-- The string carried by a `JSVal`, when it is one. -/
def JSVal.asStr : JSVal → Option String
  | .str s => some s
  | .other => none

/-- `goog.storage.mechanism.ErrorCode`: the failure reasons raised by the
storage mechanisms. -/
inductive ErrorCode where
  | STORAGE_DISABLED
  | QUOTA_EXCEEDED
  | INVALID_VALUE
deriving DecidableEq

/-- The host-provided HTML5 `Storage` object: an ordered list of
key/value entries (the positional order exposed by `key(i)`), plus a flag
saying whether `setItem` currently succeeds. -/
structure Storage where
  entries : List (String × JSVal)
  writeOk : Bool
deriving DecidableEq

/-- Replace the value stored under `k` in place, or append a new entry
when `k` is absent (the HTML5 `setItem` update rule). -/
def setEntry : List (String × JSVal) → String → JSVal → List (String × JSVal)
  | [], k, v => [(k, v)]
  | e :: es, k, v => if e.1 = k then (k, v) :: es else e :: setEntry es k v

/-- Host `Storage.prototype.setItem`: `none` models the thrown exception
when writes are rejected; otherwise the entry under `k` is replaced in
place or appended. -/
def Storage.setItem (st : Storage) (k : String) (v : JSVal) : Option Storage :=
  if st.writeOk then some ⟨setEntry st.entries k v, st.writeOk⟩ else none

/-- Host `Storage.prototype.getItem`: the value stored under `k`, or
`none` for JS `null` when `k` is absent. -/
def Storage.getItem (st : Storage) (k : String) : Option JSVal :=
  (st.entries.find? (fun e => e.1 == k)).map Prod.snd

/-- Host `Storage.prototype.removeItem`: deletes the entry under `k`;
does nothing when `k` is absent. -/
def Storage.removeItem (st : Storage) (k : String) : Storage :=
  ⟨st.entries.filter (fun e => e.1 != k), st.writeOk⟩

/-- Host `Storage.prototype.clear`: removes every entry. -/
def Storage.clear (st : Storage) : Storage :=
  ⟨[], st.writeOk⟩

/-- Host `Storage.prototype.length`: the number of stored entries. -/
def Storage.length (st : Storage) : Nat :=
  st.entries.length

/-- Host `Storage.prototype.key`: the key at positional index `i`, or
`none` for JS `null` when `i` is out of range. -/
def Storage.key (st : Storage) (i : Nat) : Option String :=
  (st.entries.get? i).map Prod.fst

namespace HTML5WebStorage

/-- `HTML5WebStorage.STORAGE_AVAILABLE_KEY_`: the sentinel key used by the
availability probe. -/
def STORAGE_AVAILABLE_KEY_ : String := "__sak"

/-- `HTML5WebStorage.prototype.isAvailable`: `false` when the storage
handle is absent; otherwise writes `'1'` under the sentinel key and
removes it again, returning `false` (and leaving the state as it was)
when the write throws.  Returns the boolean together with the resulting
storage handle. -/
def isAvailable : Option Storage → Bool × Option Storage
  | none => (false, none)
  | some st =>
    match st.setItem STORAGE_AVAILABLE_KEY_ (.str "1") with
    | some st1 => (true, some (st1.removeItem STORAGE_AVAILABLE_KEY_))
    | none => (false, some st)

/-- `HTML5WebStorage.prototype.set`: delegates to `setItem`; when that
throws, re-throws `STORAGE_DISABLED` if the backend holds zero entries
and `QUOTA_EXCEEDED` otherwise. -/
def set (st : Storage) (k v : String) : Except ErrorCode Storage :=
  match st.setItem k (.str v) with
  | some st1 => .ok st1
  | none =>
    if st.length = 0 then .error .STORAGE_DISABLED else .error .QUOTA_EXCEEDED

/-- `HTML5WebStorage.prototype.get`: returns the stored value; a value
that is neither a string nor null is an `INVALID_VALUE` error. -/
def get (st : Storage) (k : String) : Except ErrorCode (Option String) :=
  match st.getItem k with
  | none => .ok none
  | some (.str s) => .ok (some s)
  | some .other => .error .INVALID_VALUE

/-- `HTML5WebStorage.prototype.remove`: delegates to `removeItem`. -/
def remove (st : Storage) (k : String) : Storage :=
  st.removeItem k

/-- `HTML5WebStorage.prototype.getCount`: delegates to `length`. -/
def getCount (st : Storage) : Nat :=
  st.length

/-- The loop of the iterator returned by
`HTML5WebStorage.prototype.__iterator__`, run to completion.  The list
argument is the suffix of the entries from the current index `i` (the
loop reads `storage.key(i)` for increasing `i`; since nothing mutates
the backend during traversal this is exactly a walk of the entry list).
For each entry: with `optKeys` the key is yielded; otherwise the loop
reads `getItem(key)` and yields it when it is a string, throwing
`INVALID_VALUE` otherwise.  The result is the list of yielded strings in
order, together with `some` error when the traversal aborted by
throwing. -/
def iterLoop (st : Storage) (optKeys : Bool) :
    List (String × JSVal) → List String × Option ErrorCode
  | [] => ([], none)
  | e :: rest =>
    if optKeys then
      let r := iterLoop st optKeys rest
      (e.1 :: r.1, r.2)
    else
      match st.getItem e.1 with
      | some (.str s) =>
        let r := iterLoop st optKeys rest
        (s :: r.1, r.2)
      | _ => ([], some ErrorCode.INVALID_VALUE)

/-- `HTML5WebStorage.prototype.__iterator__`, run to completion from
index 0. -/
def iterate (st : Storage) (optKeys : Bool) : List String × Option ErrorCode :=
  iterLoop st optKeys st.entries

/-- `HTML5WebStorage.prototype.clear`: delegates to the host `clear`. -/
def clear (st : Storage) : Storage :=
  st.clear

/-- `HTML5WebStorage.prototype.key`: delegates to the host `key`. -/
def key (st : Storage) (index : Nat) : Option String :=
  st.key index

end HTML5WebStorage

/-! ## Helper lemmas about the host storage model -/

theorem find?_setEntry_self (l : List (String × JSVal)) (k : String) (v : JSVal) :
    (setEntry l k v).find? (fun e => e.1 == k) = some (k, v) := by
  induction l with
  | nil => simp [setEntry]
  | cons e es ih =>
    by_cases h : e.1 = k
    · simp [setEntry, h]
    · simp only [setEntry, if_neg h]
      rw [List.find?_cons_of_neg]
      · exact ih
      · simp [h]

theorem find?_setEntry_ne (l : List (String × JSVal)) (k k2 : String) (v : JSVal)
    (hk : k2 ≠ k) :
    (setEntry l k v).find? (fun e => e.1 == k2) = l.find? (fun e => e.1 == k2) := by
  induction l with
  | nil =>
    simp [setEntry, List.find?, show (k == k2) = false by simp [Ne.symm hk]]
  | cons e es ih =>
    by_cases h : e.1 = k
    · simp only [setEntry, if_pos h]
      rw [List.find?_cons, List.find?_cons]
      have h1 : (k == k2) = false := by simp [Ne.symm hk]
      have h2 : (e.1 == k2) = false := by simp [h, Ne.symm hk]
      simp [h1, h2]
    · simp only [setEntry, if_neg h]
      rw [List.find?_cons, List.find?_cons, ih]

theorem find?_filter_ne_self (l : List (String × JSVal)) (k : String) :
    (l.filter (fun e => e.1 != k)).find? (fun e => e.1 == k) = none := by
  rw [List.find?_eq_none]
  intro e he
  have := (List.mem_filter.mp he).2
  simpa using this

theorem find?_filter_ne_other (l : List (String × JSVal)) (k k2 : String)
    (hk : k2 ≠ k) :
    (l.filter (fun e => e.1 != k)).find? (fun e => e.1 == k2)
      = l.find? (fun e => e.1 == k2) := by
  induction l with
  | nil => simp
  | cons e es ih =>
    by_cases h : e.1 = k
    · have h2 : (e.1 == k2) = false := by simp [h, Ne.symm hk]
      have h3 : (k == k2) = false := by simp [Ne.symm hk]
      simp [List.filter_cons, h, List.find?_cons, h2, h3, ih]
    · simp only [List.filter_cons, show (e.1 != k) = true by simp [h], if_pos]
      rw [List.find?_cons, List.find?_cons, ih]

theorem find?_of_nodup_mem (l : List (String × JSVal)) (k : String) (v : JSVal)
    (hnd : (l.map Prod.fst).Nodup) (hmem : (k, v) ∈ l) :
    l.find? (fun e => e.1 == k) = some (k, v) := by
  induction l with
  | nil => cases hmem
  | cons e es ih =>
    rw [List.map_cons, List.nodup_cons] at hnd
    rcases List.mem_cons.mp hmem with heq | htl
    · subst heq
      simp [List.find?_cons]
    · by_cases h : e.1 = k
      · exfalso
        apply hnd.1
        rw [h]
        exact List.mem_map_of_mem Prod.fst htl
      · rw [List.find?_cons_of_neg]
        · exact ih hnd.2 htl
        · simp [h]

theorem getItem_of_nodup_get (st : Storage)
    (hnd : (st.entries.map Prod.fst).Nodup) (i : Fin st.entries.length) :
    st.getItem (st.entries.get i).1 = some (st.entries.get i).2 := by
  rw [Storage.getItem, find?_of_nodup_mem st.entries (st.entries.get i).1
    (st.entries.get i).2 hnd (by exact st.entries.get_mem i.1 i.2)]
  rfl

theorem getItem_mem_str (st : Storage)
    (h : ∀ e ∈ st.entries, e.2.isStr = true) (k : String) (v : JSVal)
    (hmem : (k, v) ∈ st.entries) :
    ∃ s, st.getItem k = some (.str s) := by
  have hsome : (st.entries.find? (fun e => e.1 == k)).isSome := by
    rw [List.find?_isSome]
    exact ⟨(k, v), hmem, by simp⟩
  rcases Option.isSome_iff_exists.mp hsome with ⟨e, he⟩
  have hmem2 : e ∈ st.entries := List.mem_of_find?_eq_some he
  have hstr := h e hmem2
  cases hv : e.2 with
  | str s =>
    refine ⟨s, ?_⟩
    rw [Storage.getItem, he]
    simp [hv]
  | other => rw [hv] at hstr; cases hstr

/-! ## Helper lemmas about the iterator loop -/

theorem iterLoop_keys (st : Storage) (l : List (String × JSVal)) :
    HTML5WebStorage.iterLoop st true l = (l.map Prod.fst, none) := by
  induction l with
  | nil => rfl
  | cons e es ih => simp [HTML5WebStorage.iterLoop, ih]

theorem iterLoop_all_str (st : Storage) (l : List (String × JSVal))
    (h : ∀ e ∈ l, ∃ s, st.getItem e.1 = some (.str s)) :
    (HTML5WebStorage.iterLoop st false l).2 = none ∧
      (HTML5WebStorage.iterLoop st false l).1.length = l.length := by
  induction l with
  | nil => exact ⟨rfl, rfl⟩
  | cons e es ih =>
    rcases h e (List.mem_cons_self e es) with ⟨s, hs⟩
    have ihr := ih (fun x hx => h x (List.mem_cons_of_mem e hx))
    simp only [HTML5WebStorage.iterLoop, if_neg Bool.false_ne_true, hs]
    exact ⟨ihr.1, by simp [ihr.2]⟩

theorem iterLoop_first_bad (st : Storage) (pre : List (String × JSVal))
    (k : String) (v : JSVal) (post : List (String × JSVal))
    (hpre : ∀ e ∈ pre, st.getItem e.1 = some e.2 ∧ e.2.isStr = true)
    (hbadget : st.getItem k = some v) (hbad : v.isStr = false) :
    HTML5WebStorage.iterLoop st false (pre ++ (k, v) :: post)
      = (pre.filterMap (fun e => e.2.asStr), some ErrorCode.INVALID_VALUE) := by
  induction pre with
  | nil =>
    cases v with
    | str s => cases hbad
    | other =>
      simp only [List.nil_append, HTML5WebStorage.iterLoop,
        if_neg Bool.false_ne_true, hbadget]
      rfl
  | cons e es ih =>
    rcases hpre e (List.mem_cons_self e es) with ⟨hget, hstr⟩
    cases hv : e.2 with
    | other => rw [hv] at hstr; cases hstr
    | str s =>
      rw [hv] at hget
      have ihr := ih (fun x hx => hpre x (List.mem_cons_of_mem e hx))
      simp only [List.cons_append, HTML5WebStorage.iterLoop,
        if_neg Bool.false_ne_true, hget]
      simp [List.filterMap_cons, hv, JSVal.asStr, ihr]

/-! ## Claims -/

/-- C1: for every string key and value, when the underlying write
succeeds, `set` followed by `get` on the resulting state, with no
intervening operation, returns exactly the value. -/
theorem c1_set_then_get (st : Storage) (k v : String) (hw : st.writeOk = true) :
    ∃ st1, HTML5WebStorage.set st k v = .ok st1 ∧
      HTML5WebStorage.get st1 k = .ok (some v) := by
  refine ⟨⟨setEntry st.entries k (.str v), st.writeOk⟩, ?_, ?_⟩
  · rw [HTML5WebStorage.set, Storage.setItem, if_pos hw]
  · have hg : Storage.getItem ⟨setEntry st.entries k (.str v), st.writeOk⟩ k
        = some (.str v) := by
      rw [Storage.getItem, find?_setEntry_self]
      rfl
    simp [HTML5WebStorage.get, hg]

/-- C1 witness: set then get at a concrete key and value. -/
theorem c1_set_then_get_witness :
    ∃ st1, HTML5WebStorage.set ⟨[], true⟩ "a" "b" = .ok st1 ∧
      HTML5WebStorage.get st1 "a" = .ok (some "b") :=
  c1_set_then_get ⟨[], true⟩ "a" "b" rfl

/-- C2: `set` raises STORAGE_DISABLED exactly when the underlying write
throws with zero stored entries, QUOTA_EXCEEDED exactly when it throws
with a non-zero entry count, and no error in any other case. -/
theorem c2_set_failure_modes (st : Storage) (k v : String) :
    (HTML5WebStorage.set st k v = .error .STORAGE_DISABLED
        ↔ st.writeOk = false ∧ st.length = 0) ∧
    (HTML5WebStorage.set st k v = .error .QUOTA_EXCEEDED
        ↔ st.writeOk = false ∧ st.length ≠ 0) ∧
    (st.writeOk = true → ∀ e, HTML5WebStorage.set st k v ≠ .error e) := by
  cases hw : st.writeOk
  · by_cases hl : st.length = 0 <;>
      simp [HTML5WebStorage.set, Storage.setItem, hw, hl]
  · simp [HTML5WebStorage.set, Storage.setItem, hw]

/-- C2 witness: a rejected write on an empty backend raises
STORAGE_DISABLED. -/
theorem c2_set_failure_modes_witness :
    HTML5WebStorage.set ⟨[], false⟩ "k" "v" = .error .STORAGE_DISABLED :=
  ((c2_set_failure_modes ⟨[], false⟩ "k" "v").1).mpr ⟨rfl, rfl⟩

/-- C3: `get` returns the stored string, null when the key is absent,
and raises INVALID_VALUE exactly when the underlying value is neither a
string nor null; it never coerces a non-string value. -/
theorem c3_get_invariant (st : Storage) (k : String) :
    (HTML5WebStorage.get st k = .ok none ↔ st.getItem k = none) ∧
    (∀ s, HTML5WebStorage.get st k = .ok (some s) ↔ st.getItem k = some (.str s)) ∧
    (HTML5WebStorage.get st k = .error .INVALID_VALUE
        ↔ ∃ w, st.getItem k = some w ∧ w.isStr = false) ∧
    (∀ e, HTML5WebStorage.get st k = .error e → e = .INVALID_VALUE) := by
  cases hg : st.getItem k with
  | none => simp [HTML5WebStorage.get, hg]
  | some w => cases w <;> simp [HTML5WebStorage.get, hg, JSVal.isStr]

/-- C3 witness: a non-string underlying value is an INVALID_VALUE
error. -/
theorem c3_get_invariant_witness :
    HTML5WebStorage.get ⟨[("a", JSVal.other)], true⟩ "a"
      = .error .INVALID_VALUE :=
  ((c3_get_invariant ⟨[("a", JSVal.other)], true⟩ "a").2.2.1).mpr
    ⟨JSVal.other, rfl, rfl⟩

/-- C4: value iteration visits entries in positional index order and, at
the first position holding a non-string value, raises INVALID_VALUE
immediately, yielding exactly the string values stored before it. -/
theorem c4_iteration_first_invalid (st : Storage) (j : Nat)
    (hnd : (st.entries.map Prod.fst).Nodup) (hj : j < st.entries.length)
    (hpre : ∀ e ∈ st.entries.take j, e.2.isStr = true)
    (hbad : (st.entries.get ⟨j, hj⟩).2.isStr = false) :
    HTML5WebStorage.iterate st false
      = ((st.entries.take j).filterMap (fun e => e.2.asStr),
          some ErrorCode.INVALID_VALUE) := by
  have hsplit : st.entries
      = st.entries.take j ++ st.entries.get ⟨j, hj⟩ :: st.entries.drop (j + 1) := by
    rw [List.get_cons_drop, List.take_append_drop]
  rw [HTML5WebStorage.iterate]
  conv_lhs => rw [hsplit]
  refine iterLoop_first_bad st _ _ _ _ ?_ ?_ hbad
  · intro e he
    have hmem : e ∈ st.entries := List.take_subset j st.entries he
    have hfind : st.entries.find? (fun x => x.1 == e.1) = some (e.1, e.2) :=
      find?_of_nodup_mem st.entries e.1 e.2 hnd (by exact hmem)
    refine ⟨?_, hpre e he⟩
    rw [Storage.getItem, hfind]
    rfl
  · exact getItem_of_nodup_get st hnd ⟨j, hj⟩

/-- C4 witness: on a backend holding a string then a non-string value,
value iteration yields the first value and aborts with INVALID_VALUE. -/
theorem c4_iteration_first_invalid_witness :
    HTML5WebStorage.iterate ⟨[("a", JSVal.str "x"), ("b", JSVal.other)], true⟩ false
      = (["x"], some ErrorCode.INVALID_VALUE) := by
  have h := c4_iteration_first_invalid
    ⟨[("a", JSVal.str "x"), ("b", JSVal.other)], true⟩ 1
    (by decide) (by decide) (by decide) (by decide)
  simpa using h

/-- C5: when every stored value is a string (and nothing mutates the
backend during traversal, which the pure model enforces), getCount
equals the number of elements produced by running the value iteration to
completion. -/
theorem c5_count_matches_iteration (st : Storage)
    (h : ∀ e ∈ st.entries, e.2.isStr = true) :
    (HTML5WebStorage.iterate st false).2 = none ∧
      (HTML5WebStorage.iterate st false).1.length
        = HTML5WebStorage.getCount st := by
  have hall : ∀ e ∈ st.entries, ∃ s, st.getItem e.1 = some (.str s) := by
    intro e he
    exact getItem_mem_str st h e.1 e.2 (by exact he)
  have hmain := iterLoop_all_str st st.entries hall
  exact ⟨hmain.1, hmain.2⟩

/-- C5 witness: count and iteration length agree on a concrete
all-string backend. -/
theorem c5_count_matches_iteration_witness :
    (HTML5WebStorage.iterate ⟨[("a", JSVal.str "x")], true⟩ false).2 = none ∧
      (HTML5WebStorage.iterate ⟨[("a", JSVal.str "x")], true⟩ false).1.length
        = HTML5WebStorage.getCount ⟨[("a", JSVal.str "x")], true⟩ :=
  c5_count_matches_iteration ⟨[("a", JSVal.str "x")], true⟩ (by decide)

/-- C6: isAvailable returns true exactly when the storage handle exists
and the sentinel write/remove probe completes without a thrown error;
otherwise it returns false and raises nothing (the model is a total
function). -/
theorem c6_isAvailable_iff (sto : Option Storage) :
    (HTML5WebStorage.isAvailable sto).1 = true
      ↔ ∃ st, sto = some st ∧ st.writeOk = true := by
  cases sto with
  | none => simp [HTML5WebStorage.isAvailable]
  | some st =>
    cases hw : st.writeOk <;>
      simp [HTML5WebStorage.isAvailable, Storage.setItem, hw]

/-- C7: `remove` followed by `get` on the same key returns null; remove
raises nothing even when the key is absent (it is a total function in
the model). -/
theorem c7_remove_then_get (st : Storage) (k : String) :
    HTML5WebStorage.get (HTML5WebStorage.remove st k) k = .ok none := by
  have hg : (HTML5WebStorage.remove st k).getItem k = none := by
    rw [HTML5WebStorage.remove, Storage.removeItem, Storage.getItem,
      find?_filter_ne_self]
    rfl
  simp [HTML5WebStorage.get, hg]

/-- C8: `clear` followed by `getCount` returns 0. -/
theorem c8_clear_then_count (st : Storage) :
    HTML5WebStorage.getCount (HTML5WebStorage.clear st) = 0 := rfl

/-- C9: the availability probe leaves the mapping of every key other
than the sentinel key unchanged, and after a probe that returns true the
sentinel key is absent. -/
theorem c9_isAvailable_frame (st : Storage) (k : String)
    (hk : k ≠ HTML5WebStorage.STORAGE_AVAILABLE_KEY_) (st1 : Storage)
    (hres : (HTML5WebStorage.isAvailable (some st)).2 = some st1) :
    st1.getItem k = st.getItem k ∧
      ((HTML5WebStorage.isAvailable (some st)).1 = true →
        st1.getItem HTML5WebStorage.STORAGE_AVAILABLE_KEY_ = none) := by
  cases hw : st.writeOk with
  | false =>
    have heq : HTML5WebStorage.isAvailable (some st) = (false, some st) := by
      simp [HTML5WebStorage.isAvailable, Storage.setItem, hw]
    rw [heq] at hres
    cases Option.some.inj hres
    rw [heq]
    exact ⟨rfl, by simp⟩
  | true =>
    have heq : HTML5WebStorage.isAvailable (some st)
        = (true, some (Storage.removeItem
            ⟨setEntry st.entries HTML5WebStorage.STORAGE_AVAILABLE_KEY_
              (JSVal.str "1"), st.writeOk⟩
            HTML5WebStorage.STORAGE_AVAILABLE_KEY_)) := by
      simp [HTML5WebStorage.isAvailable, Storage.setItem, hw]
    rw [heq] at hres
    cases Option.some.inj hres
    constructor
    · rw [Storage.removeItem, Storage.getItem, Storage.getItem,
        find?_filter_ne_other _ _ _ hk, find?_setEntry_ne _ _ _ _ hk]
    · intro _
      rw [Storage.removeItem, Storage.getItem, find?_filter_ne_self]
      rfl

/-- C9 witness: on a concrete one-entry backend the probe preserves the
entry and leaves no sentinel behind. -/
theorem c9_isAvailable_frame_witness :
    (Storage.mk [("a", JSVal.str "x")] true).getItem "a"
        = (Storage.mk [("a", JSVal.str "x")] true).getItem "a" ∧
      ((HTML5WebStorage.isAvailable
          (some (Storage.mk [("a", JSVal.str "x")] true))).1 = true →
        (Storage.mk [("a", JSVal.str "x")] true).getItem
            HTML5WebStorage.STORAGE_AVAILABLE_KEY_ = none) :=
  c9_isAvailable_frame (Storage.mk [("a", JSVal.str "x")] true) "a"
    (by decide) (Storage.mk [("a", JSVal.str "x")] true) (by decide)

/-- C10: keys-only iteration yields every key in positional index order
and never raises, regardless of the stored values (it never reads
them). -/
theorem c10_keys_iteration_total (st : Storage) :
    HTML5WebStorage.iterate st true = (st.entries.map Prod.fst, none) :=
  iterLoop_keys st st.entries
